import Mathlib

/-!
# Verification of the `phttp` resilient HTTP client

Shallow embedding of `phttp.go`: a `Client` bundling a `Requester`
(HTTP transport), an optional `Waiter` (rate-limit gate) and an optional
`Backoff` (retry policy), with the `Do` pipeline that waits, sends,
classifies 4xx responses as permanent failures and hands transient
failures to an external retry driver.

Effects are made explicit: each operation returns, together with its Go
result pair `(resp, err)`, the list of observable `Event`s it performed
(waiter invocation, transport invocation, body close), so that claims
about "the Transport is invoked exactly once" are statable.
-/

set_option autoImplicit false

/-- A cancellable Go `context.Context`, identified abstractly: the core
only threads it from the request into the waiter, so its identity is all
that matters. -/
structure Context where
  id : Nat
deriving DecidableEq, Repr

/-- An outbound `*http.Request`. The core reads only its context
(`req.Context()`); method, URL, headers and body are opaque payload it
never touches, so they are not modelled. -/
structure Request where
  ctx : Context
deriving DecidableEq, Repr

instance : DecidableEq (Except String String)
  | .ok a, .ok b =>
    if h : a = b then .isTrue (by rw [h]) else .isFalse (by simp [h])
  | .ok _, .error _ => .isFalse nofun
  | .error _, .ok _ => .isFalse nofun
  | .error a, .error b =>
    if h : a = b then .isTrue (by rw [h]) else .isFalse (by simp [h])

/-- An inbound `*http.Response`. `StatusCode` is the Go `int` status.
The `Body` stream is modelled by the outcome that draining it would
produce: `.ok s` when `io.ReadAll` yields the text `s`, `.error m` when
the read fails with message `m`. Whether the stream actually gets
drained and closed is recorded separately in the event trace. -/
structure Response where
  StatusCode : Int
  Body : Except String String
deriving DecidableEq, Repr

/-- `HTTPError` from the source: status code, body text and the
original response. -/
structure HTTPError where
  Code : Int
  Body : String
  Response : Response
deriving DecidableEq, Repr

/-- `HTTPError.Error()`: prints the status code and, when nonempty, the
body. -/
def HTTPError.ErrorString (e : HTTPError) : String :=
  if e.Body ≠ "" then
    "failed HTTP call: " ++ toString e.Code ++ ": " ++ e.Body
  else
    "failed HTTP call: " ++ toString e.Code

/-- Go `error` values that can flow out of this library:
context errors from the waiter, transport-level errors from the
requester, `HTTPError` values, the `backoff.Permanent` tag, and
`fmt.Errorf` wrapping with a message prefix and `%w`. -/
inductive GoError where
  | ctxErr (msg : String)
  | transportErr (msg : String)
  | http (e : HTTPError)
  | permanent (e : GoError)
  | wrapped (msg : String) (e : GoError)
deriving DecidableEq, Repr

/-- `Error()` on the modelled errors: `backoff.PermanentError` delegates
to the wrapped error, `fmt.Errorf("msg: %w", e)` prepends the prefix. -/
def GoError.message : GoError → String
  | .ctxErr m => m
  | .transportErr m => m
  | .http e => e.ErrorString
  | .permanent e => e.message
  | .wrapped m e => m ++ ": " ++ e.message

/-- The check `errors.As(err, &permanent)` performed by the retry
driver. The attempt step only ever tags errors at the top level, so the
top-level test is faithful. -/
def GoError.isPermanentTagged : GoError → Bool
  | .permanent _ => true
  | _ => false

/-- The retry driver returns `permanent.Err`, the error inside the
`backoff.Permanent` tag, when it stops on a permanent failure. -/
def GoError.stripPermanent : GoError → GoError
  | .permanent e => e
  | e => e

/-- `true` when the error contains no `fmt.Errorf` wrapping anywhere. -/
def GoError.wrapFree : GoError → Bool
  | .wrapped _ _ => false
  | .permanent e => e.wrapFree
  | _ => true

/-- Observable side effects of one `Do` call. -/
inductive Event where
  | waitCall
  | transportCall
  | bodyClose
deriving DecidableEq, Repr

/-- The `Requester` interface: one HTTP exchange per call. A transport
is modelled by what it does on its n-th invocation within a `Do` call:
either a transport-level failure (message) or a response, exactly one of
the two, per the standard HTTP client contract. -/
def RequesterT : Type := Nat → Except String Response

/-- The `Waiter` interface: `Wait(ctx)` either admits (`none`) or fails
with a context error message (`some msg`). -/
def WaiterT : Type := Context → Option String

/-- A `backoff.BackOff` retry policy, modelled by the sequence of delays
its `NextBackOff` yields before answering `backoff.Stop`: the driver
performs one more attempt per listed delay. -/
def BackoffT : Type := List Nat

/-- The `Client`: a `Requester`, an optional `Waiter` (nil means no
gating) and an optional `Backoff` (nil means exactly one attempt). -/
structure Client where
  Requester : RequesterT
  Waiter : Option WaiterT
  Backoff : Option BackoffT

/-- `http.DefaultClient`, the external transport installed as default by
`New`. Only its identity matters to the construction claims; its network
behaviour is external to this library and is modelled as an opaque
transport-level failure. -/
def httpDefaultClient : RequesterT := fun _ => .error "external network exchange"

/-- `Option` from the source (functional option): alters a `Client`. -/
def ClientOption : Type := Client → Client

/-- `WithHttpClient`: use the given `Requester`. -/
def WithHttpClient (requester : RequesterT) : ClientOption :=
  fun c => { c with Requester := requester }

/-- `WithRateLimiter`: use the given `Waiter`. -/
def WithRateLimiter (waiter : WaiterT) : ClientOption :=
  fun c => { c with Waiter := some waiter }

/-- `WithBackOff`: use the given `backoff.BackOff`. -/
def WithBackOff (bo : BackoffT) : ClientOption :=
  fun c => { c with Backoff := some bo }

/-- `New`: start from the defaults (`http.DefaultClient`, no waiter, no
backoff) and apply the options in argument order. -/
def New (opts : List ClientOption) : Client :=
  opts.foldl (fun c opt => opt c)
    { Requester := httpDefaultClient, Waiter := none, Backoff := none }

/-- `readHTTPBody`: drain the body via `io.ReadAll` and close it
(deferred, so the close happens on the failure path too). Returns the
read outcome and the close event. -/
def readHTTPBody (bodyReader : Except String String) :
    Except String String × List Event :=
  (bodyReader, [.bodyClose])

/-- `(*Client).do`, the execution-and-classification step, at attempt
number `attempt` within one `Do` call: wait on the gate when a waiter is
configured, invoke the transport, classify the response. Returns the Go
result pair `(resp, err)` together with the trace of events performed. -/
def Client.doAttempt (c : Client) (req : Request) (attempt : Nat) :
    (Option Response × Option GoError) × List Event :=
  let waitStep : Option GoError × List Event :=
    match c.Waiter with
    | some w => ((w req.ctx).map GoError.ctxErr, [.waitCall])
    | none => (none, [])
  match waitStep with
  | (some e, tr) => ((none, some e), tr)
  | (none, tr) =>
    match c.Requester attempt with
    | .error msg => ((none, some (.transportErr msg)), tr ++ [.transportCall])
    | .ok resp =>
      if resp.StatusCode > 399 ∧ resp.StatusCode < 500 then
        let bodyRead := readHTTPBody resp.Body
        match bodyRead.1 with
        | .error _ =>
          ((none, some (.permanent (.http
              { Code := resp.StatusCode, Body := "", Response := resp }))),
            tr ++ [.transportCall] ++ bodyRead.2)
        | .ok bodyBytes =>
          ((none, some (.permanent (.http
              { Code := resp.StatusCode, Body := bodyBytes, Response := resp }))),
            tr ++ [.transportCall] ++ bodyRead.2)
      else
        ((some resp, none), tr ++ [.transportCall])

/-- The external retry driver `backoff.Retry`, per its contract: run the
operation; on success stop; on a `backoff.Permanent` error stop and
return the unwrapped error; on a transient error consult the policy and,
while delays remain, run the operation again; once the policy answers
`Stop` give up with the last error. Accumulates the event traces of all
attempts. -/
def backoffRetry (c : Client) (req : Request) :
    BackoffT → Nat → (Option Response × Option GoError) × List Event
  | [], attempt =>
    match c.doAttempt req attempt with
    | ((r, none), evs) => ((r, none), evs)
    | ((_, some e), evs) =>
      if e.isPermanentTagged then ((none, some e.stripPermanent), evs)
      else ((none, some e), evs)
  | _ :: rest, attempt =>
    match c.doAttempt req attempt with
    | ((r, none), evs) => ((r, none), evs)
    | ((_, some e), evs) =>
      if e.isPermanentTagged then ((none, some e.stripPermanent), evs)
      else
        match backoffRetry c req rest (attempt + 1) with
        | (res, evs2) => (res, evs ++ evs2)

/-- `(*Client).Do`: with no backoff configured, a single invocation of
the attempt step, returned unmodified; with a backoff, hand the attempt
to the retry driver and, if it ultimately fails, wrap the error with the
"exhausted all retries" context message. -/
def Client.Do (c : Client) (req : Request) :
    (Option Response × Option GoError) × List Event :=
  match c.Backoff with
  | none => c.doAttempt req 0
  | some bo =>
    match backoffRetry c req bo 0 with
    | ((_, some e), evs) =>
      ((none, some (.wrapped "exhausted all retries" e)), evs)
    | ((r, none), evs) => ((r, none), evs)

/-- Number of transport invocations recorded in a trace. -/
def transportCalls (evs : List Event) : Nat := evs.count .transportCall

/-- Number of waiter invocations recorded in a trace. -/
def waitCalls (evs : List Event) : Nat := evs.count .waitCall

/-- Number of body closes recorded in a trace. -/
def bodyCloses (evs : List Event) : Nat := evs.count .bodyClose

/-- The wait step succeeds for this client and request: either no waiter
is configured or the configured waiter admits the request context. -/
def waitOk (c : Client) (req : Request) : Prop :=
  match c.Waiter with
  | none => True
  | some w => w req.ctx = none

/-- Trace contributed by the wait step when it succeeds. -/
def waitTrace (c : Client) : List Event :=
  match c.Waiter with
  | none => []
  | some _ => [.waitCall]

/-- The `HTTPError` the 4xx branch builds for a response: the drained
body text when the drain succeeds, the empty string when it fails. -/
def httpErrorFor (resp : Response) : HTTPError :=
  match resp.Body with
  | .ok s => { Code := resp.StatusCode, Body := s, Response := resp }
  | .error _ => { Code := resp.StatusCode, Body := "", Response := resp }

/-! ## Concrete fixtures for instantiating the general theorems -/

/-- Fixture request. -/
def reqA : Request := Request.mk (Context.mk 0)

/-- Fixture 404 response whose body drains successfully. -/
def resp404 : Response := Response.mk 404 (.ok "not found")

/-- Fixture 404 response whose body drain fails. -/
def resp404bad : Response := Response.mk 404 (.error "connection reset")

/-- Fixture 200 response. -/
def resp200 : Response := Response.mk 200 (.ok "payload")

/-- Fixture 503 response. -/
def resp503 : Response := Response.mk 503 (.ok "unavailable")

/-- Fixture transport answering every call with the same response. -/
def okTransport (resp : Response) : RequesterT := fun _ => .ok resp

/-- Fixture transport failing every call at the transport level. -/
def failTransport : RequesterT := fun i => .error ("dial refused " ++ toString i)

/-- Fixture waiter that always admits. -/
def admitWaiter : WaiterT := fun _ => none

/-- Fixture waiter whose context is already cancelled. -/
def cancelledWaiter : WaiterT := fun _ => some "context canceled"

/-! ## Characterization lemmas for the attempt step -/

theorem doAttempt_wait_fail (c : Client) (req : Request) (attempt : Nat)
    (w : WaiterT) (m : String) (hW : c.Waiter = some w)
    (hm : w req.ctx = some m) :
    c.doAttempt req attempt = ((none, some (.ctxErr m)), [.waitCall]) := by
  simp [Client.doAttempt, hW, hm]

theorem doAttempt_transport_error (c : Client) (req : Request) (attempt : Nat)
    (msg : String) (hw : waitOk c req)
    (hr : c.Requester attempt = .error msg) :
    c.doAttempt req attempt =
      ((none, some (.transportErr msg)), waitTrace c ++ [.transportCall]) := by
  unfold waitOk at hw
  unfold Client.doAttempt waitTrace
  cases hW : c.Waiter with
  | none => simp [hW, hr]
  | some w =>
    rw [hW] at hw
    simp [hW, hr, hw]

theorem doAttempt_4xx (c : Client) (req : Request) (attempt : Nat)
    (resp : Response) (hw : waitOk c req)
    (hr : c.Requester attempt = .ok resp)
    (h4 : resp.StatusCode > 399 ∧ resp.StatusCode < 500) :
    c.doAttempt req attempt =
      ((none, some (.permanent (.http (httpErrorFor resp)))),
        waitTrace c ++ [.transportCall, .bodyClose]) := by
  unfold waitOk at hw
  unfold Client.doAttempt waitTrace httpErrorFor
  cases hW : c.Waiter with
  | none =>
    cases hB : resp.Body <;> simp [hW, hr, h4, readHTTPBody, hB]
  | some w =>
    rw [hW] at hw
    cases hB : resp.Body <;> simp [hW, hr, h4, hw, readHTTPBody, hB]

theorem doAttempt_success (c : Client) (req : Request) (attempt : Nat)
    (resp : Response) (hw : waitOk c req)
    (hr : c.Requester attempt = .ok resp)
    (h4 : ¬(resp.StatusCode > 399 ∧ resp.StatusCode < 500)) :
    c.doAttempt req attempt =
      ((some resp, none), waitTrace c ++ [.transportCall]) := by
  unfold waitOk at hw
  unfold Client.doAttempt waitTrace
  cases hW : c.Waiter with
  | none => simp [hW, hr, h4]
  | some w =>
    rw [hW] at hw
    simp [hW, hr, h4, hw]

/-! ## Characterization lemmas for the retry driver and `Do` -/

theorem backoffRetry_of_success (c : Client) (req : Request) (bo : BackoffT)
    (attempt : Nat) (r : Option Response) (evs : List Event)
    (hatt : c.doAttempt req attempt = ((r, none), evs)) :
    backoffRetry c req bo attempt = ((r, none), evs) := by
  cases bo <;> simp [backoffRetry, hatt]

theorem backoffRetry_of_permanent (c : Client) (req : Request) (bo : BackoffT)
    (attempt : Nat) (r : Option Response) (e : GoError) (evs : List Event)
    (hatt : c.doAttempt req attempt = ((r, some e), evs))
    (hp : e.isPermanentTagged = true) :
    backoffRetry c req bo attempt = ((none, some e.stripPermanent), evs) := by
  cases bo <;> simp [backoffRetry, hatt, hp]

theorem backoffRetry_transient_nil (c : Client) (req : Request)
    (attempt : Nat) (r : Option Response) (e : GoError) (evs : List Event)
    (hatt : c.doAttempt req attempt = ((r, some e), evs))
    (hp : e.isPermanentTagged = false) :
    backoffRetry c req [] attempt = ((none, some e), evs) := by
  simp [backoffRetry, hatt, hp]

theorem backoffRetry_transient_cons (c : Client) (req : Request)
    (d : Nat) (rest : BackoffT)
    (attempt : Nat) (r : Option Response) (e : GoError) (evs : List Event)
    (hatt : c.doAttempt req attempt = ((r, some e), evs))
    (hp : e.isPermanentTagged = false) :
    backoffRetry c req (d :: rest) attempt =
      ((backoffRetry c req rest (attempt + 1)).1,
        evs ++ (backoffRetry c req rest (attempt + 1)).2) := by
  simp [backoffRetry, hatt, hp]

theorem Do_no_backoff (c : Client) (req : Request) (hB : c.Backoff = none) :
    c.Do req = c.doAttempt req 0 := by
  simp [Client.Do, hB]

theorem Do_backoff_error (c : Client) (req : Request) (bo : BackoffT)
    (hB : c.Backoff = some bo)
    (r : Option Response) (e : GoError) (evs : List Event)
    (hrun : backoffRetry c req bo 0 = ((r, some e), evs)) :
    c.Do req = ((none, some (.wrapped "exhausted all retries" e)), evs) := by
  simp [Client.Do, hB, hrun]

theorem Do_backoff_success (c : Client) (req : Request) (bo : BackoffT)
    (hB : c.Backoff = some bo)
    (r : Option Response) (evs : List Event)
    (hrun : backoffRetry c req bo 0 = ((r, none), evs)) :
    c.Do req = ((r, none), evs) := by
  simp [Client.Do, hB, hrun]

/-! ## Trace counting -/

theorem transportCalls_append (l1 l2 : List Event) :
    transportCalls (l1 ++ l2) = transportCalls l1 + transportCalls l2 := by
  simp [transportCalls, List.count_append]

theorem waitCalls_append (l1 l2 : List Event) :
    waitCalls (l1 ++ l2) = waitCalls l1 + waitCalls l2 := by
  simp [waitCalls, List.count_append]

theorem bodyCloses_append (l1 l2 : List Event) :
    bodyCloses (l1 ++ l2) = bodyCloses l1 + bodyCloses l2 := by
  simp [bodyCloses, List.count_append]

theorem transportCalls_waitTrace (c : Client) :
    transportCalls (waitTrace c) = 0 := by
  unfold waitTrace transportCalls
  cases c.Waiter <;> simp [List.count_cons]

theorem bodyCloses_waitTrace (c : Client) :
    bodyCloses (waitTrace c) = 0 := by
  unfold waitTrace bodyCloses
  cases c.Waiter <;> simp [List.count_cons]

/-! ## Structural helper lemmas -/

theorem waitOk_of_none (c : Client) (req : Request) (hW : c.Waiter = none) :
    waitOk c req := by
  simp [waitOk, hW]

theorem waitOk_of_pass (c : Client) (req : Request) (w : WaiterT)
    (hW : c.Waiter = some w) (hm : w req.ctx = none) : waitOk c req := by
  simp [waitOk, hW, hm]

theorem httpErrorFor_Code (resp : Response) :
    (httpErrorFor resp).Code = resp.StatusCode := by
  unfold httpErrorFor
  cases resp.Body <;> rfl

theorem httpErrorFor_Response (resp : Response) :
    (httpErrorFor resp).Response = resp := by
  unfold httpErrorFor
  cases resp.Body <;> rfl

theorem wrapFree_stripPermanent (e : GoError) (h : e.wrapFree = true) :
    e.stripPermanent.wrapFree = true := by
  cases e <;> simp_all [GoError.stripPermanent, GoError.wrapFree]

theorem doAttempt_cases (c : Client) (req : Request) (attempt : Nat) :
    (∃ resp evs, c.doAttempt req attempt = ((some resp, none), evs)) ∨
    (∃ e evs, c.doAttempt req attempt = ((none, some e), evs) ∧
      e.wrapFree = true) := by
  have afterWait : waitOk c req →
      (∃ resp evs, c.doAttempt req attempt = ((some resp, none), evs)) ∨
      (∃ e evs, c.doAttempt req attempt = ((none, some e), evs) ∧
        e.wrapFree = true) := by
    intro hw
    cases hr : c.Requester attempt with
    | error msg =>
      right
      exact ⟨_, _, doAttempt_transport_error c req attempt msg hw hr, rfl⟩
    | ok resp =>
      by_cases h4 : resp.StatusCode > 399 ∧ resp.StatusCode < 500
      · right
        exact ⟨_, _, doAttempt_4xx c req attempt resp hw hr h4, rfl⟩
      · left
        exact ⟨resp, _, doAttempt_success c req attempt resp hw hr h4⟩
  cases hW : c.Waiter with
  | none => exact afterWait (waitOk_of_none c req hW)
  | some w =>
    cases hm : w req.ctx with
    | some m =>
      right
      exact ⟨_, _, doAttempt_wait_fail c req attempt w m hW hm, rfl⟩
    | none => exact afterWait (waitOk_of_pass c req w hW hm)

theorem backoffRetry_cases (c : Client) (req : Request) (bo : BackoffT)
    (attempt : Nat) :
    (∃ resp evs, backoffRetry c req bo attempt = ((some resp, none), evs)) ∨
    (∃ e evs, backoffRetry c req bo attempt = ((none, some e), evs) ∧
      e.wrapFree = true) := by
  induction bo generalizing attempt with
  | nil =>
    rcases doAttempt_cases c req attempt with ⟨resp, evs, h⟩ | ⟨e, evs, h, hwf⟩
    · left
      exact ⟨resp, evs, backoffRetry_of_success c req [] attempt _ evs h⟩
    · by_cases hp : e.isPermanentTagged = true
      · right
        exact ⟨e.stripPermanent, evs,
          backoffRetry_of_permanent c req [] attempt none e evs h hp,
          wrapFree_stripPermanent e hwf⟩
      · right
        refine ⟨e, evs, ?_, hwf⟩
        exact backoffRetry_transient_nil c req attempt none e evs h
          (by simpa using hp)
  | cons d rest ih =>
    rcases doAttempt_cases c req attempt with ⟨resp, evs, h⟩ | ⟨e, evs, h, hwf⟩
    · left
      exact ⟨resp, evs, backoffRetry_of_success c req (d :: rest) attempt _ evs h⟩
    · by_cases hp : e.isPermanentTagged = true
      · right
        exact ⟨e.stripPermanent, evs,
          backoffRetry_of_permanent c req (d :: rest) attempt none e evs h hp,
          wrapFree_stripPermanent e hwf⟩
      · have hstep := backoffRetry_transient_cons c req d rest attempt none e evs
          h (by simpa using hp)
        rcases ih (attempt + 1) with ⟨resp2, evs2, h2⟩ | ⟨e2, evs2, h2, hwf2⟩
        · left
          refine ⟨resp2, evs ++ evs2, ?_⟩
          rw [hstep, h2]
        · right
          refine ⟨e2, evs ++ evs2, ?_, hwf2⟩
          rw [hstep, h2]

theorem transportCalls_after_wait (c : Client) (l : List Event) :
    transportCalls (waitTrace c ++ l) = transportCalls l := by
  rw [transportCalls_append, transportCalls_waitTrace]
  omega

theorem bodyCloses_after_wait (c : Client) (l : List Event) :
    bodyCloses (waitTrace c ++ l) = bodyCloses l := by
  rw [bodyCloses_append, bodyCloses_waitTrace]
  omega

theorem backoffRetry_transient_forever (c : Client) (req : Request)
    (m : Nat → String) (hw : waitOk c req)
    (hr : ∀ i, c.Requester i = .error (m i)) (bo : BackoffT) (k : Nat) :
    (backoffRetry c req bo k).1 =
      (none, some (.transportErr (m (k + bo.length)))) ∧
    transportCalls (backoffRetry c req bo k).2 = bo.length + 1 := by
  induction bo generalizing k with
  | nil =>
    have hatt := doAttempt_transport_error c req k (m k) hw (hr k)
    rw [backoffRetry_transient_nil c req k none _ _ hatt rfl]
    refine ⟨by simp, ?_⟩
    rw [transportCalls_after_wait]
    simp [transportCalls]
  | cons d rest ih =>
    have hatt := doAttempt_transport_error c req k (m k) hw (hr k)
    rw [backoffRetry_transient_cons c req d rest k none _ _ hatt rfl]
    obtain ⟨ih1, ih2⟩ := ih (k + 1)
    have harg : k + 1 + rest.length = k + (d :: rest).length := by
      simp
      omega
    constructor
    · rw [← harg]
      exact ih1
    · rw [transportCalls_append, transportCalls_after_wait, ih2]
      simp [transportCalls]
      omega

/-! ## Claim theorems -/

/-- C1: every response with status strictly between 399 and 500 is
classified by the attempt step as a `backoff.Permanent`-tagged
`HTTPError` carrying that status, and `Do` invokes the Transport exactly
once and returns an error, for every retry-policy configuration. -/
theorem C1_4xx_permanent_transport_called_once
    (c : Client) (req : Request) (resp : Response)
    (hw : waitOk c req) (hr : c.Requester 0 = .ok resp)
    (h4 : resp.StatusCode > 399 ∧ resp.StatusCode < 500) :
    (∃ he : HTTPError,
        (c.doAttempt req 0).1 = (none, some (.permanent (.http he))) ∧
        he.Code = resp.StatusCode) ∧
    transportCalls (c.Do req).2 = 1 ∧
    (c.Do req).1.1 = none := by
  have hatt := doAttempt_4xx c req 0 resp hw hr h4
  have hDo : (c.Do req).2 = waitTrace c ++ [.transportCall, .bodyClose] ∧
      (c.Do req).1.1 = none := by
    cases hB : c.Backoff with
    | none =>
      rw [Do_no_backoff c req hB, hatt]
      exact ⟨rfl, rfl⟩
    | some bo =>
      have hrun := backoffRetry_of_permanent c req bo 0 none
        (.permanent (.http (httpErrorFor resp)))
        (waitTrace c ++ [.transportCall, .bodyClose]) hatt rfl
      rw [Do_backoff_error c req bo hB none _ _ hrun]
      exact ⟨rfl, rfl⟩
  refine ⟨⟨httpErrorFor resp, by rw [hatt], httpErrorFor_Code resp⟩, ?_, hDo.2⟩
  rw [hDo.1, transportCalls_after_wait]
  decide

/-- C2: every response with status at most 399 or at least 500 is
returned by the attempt step as success, unmodified, with no body-close
event, and `Do` returns it with exactly one Transport invocation, for
every retry-policy configuration. -/
theorem C2_non_4xx_passed_through_as_success
    (c : Client) (req : Request) (resp : Response)
    (hw : waitOk c req) (hr : c.Requester 0 = .ok resp)
    (h4 : resp.StatusCode ≤ 399 ∨ resp.StatusCode ≥ 500) :
    c.doAttempt req 0 = ((some resp, none), waitTrace c ++ [.transportCall]) ∧
    (c.Do req).1 = (some resp, none) ∧
    transportCalls (c.Do req).2 = 1 ∧
    bodyCloses (c.Do req).2 = 0 := by
  have h4n : ¬(resp.StatusCode > 399 ∧ resp.StatusCode < 500) := by omega
  have hatt := doAttempt_success c req 0 resp hw hr h4n
  have hDo : c.Do req = ((some resp, none), waitTrace c ++ [.transportCall]) := by
    cases hB : c.Backoff with
    | none => rw [Do_no_backoff c req hB, hatt]
    | some bo =>
      have hrun := backoffRetry_of_success c req bo 0 (some resp)
        (waitTrace c ++ [.transportCall]) hatt
      exact Do_backoff_success c req bo hB (some resp) _ hrun
  refine ⟨hatt, by rw [hDo], ?_, ?_⟩
  · rw [hDo]
    show transportCalls (waitTrace c ++ [.transportCall]) = 1
    rw [transportCalls_after_wait]
    decide
  · rw [hDo]
    show bodyCloses (waitTrace c ++ [.transportCall]) = 0
    rw [bodyCloses_after_wait]
    decide

/-- Witness for C1: a 404 response with a retry budget of two remaining
attempts is still surfaced after a single Transport invocation. -/
theorem C1_4xx_permanent_transport_called_once_witness :
    (∃ he : HTTPError,
        ((Client.mk (okTransport resp404) none (some [1, 2])).doAttempt reqA 0).1 =
          (none, some (.permanent (.http he))) ∧
        he.Code = resp404.StatusCode) ∧
    transportCalls
      ((Client.mk (okTransport resp404) none (some [1, 2])).Do reqA).2 = 1 ∧
    ((Client.mk (okTransport resp404) none (some [1, 2])).Do reqA).1.1 = none :=
  C1_4xx_permanent_transport_called_once
    (Client.mk (okTransport resp404) none (some [1, 2])) reqA resp404
    (by trivial) rfl (by decide)

/-- Witness for C2: a 503 response passes through as success with the
body stream untouched, even with a waiter and a retry policy configured. -/
theorem C2_non_4xx_passed_through_as_success_witness :
    (Client.mk (okTransport resp503) (some admitWaiter) (some [3])).doAttempt reqA 0 =
      ((some resp503, none),
        waitTrace (Client.mk (okTransport resp503) (some admitWaiter) (some [3])) ++
          [.transportCall]) ∧
    ((Client.mk (okTransport resp503) (some admitWaiter) (some [3])).Do reqA).1 =
      (some resp503, none) ∧
    transportCalls
      ((Client.mk (okTransport resp503) (some admitWaiter) (some [3])).Do reqA).2 = 1 ∧
    bodyCloses
      ((Client.mk (okTransport resp503) (some admitWaiter) (some [3])).Do reqA).2 = 0 :=
  C2_non_4xx_passed_through_as_success
    (Client.mk (okTransport resp503) (some admitWaiter) (some [3])) reqA resp503
    (waitOk_of_pass _ reqA admitWaiter rfl rfl) rfl (by decide)

/-- C3: every transport-level failure comes out of the attempt step as
an untagged (transient) error, and with a retry policy whose driver
budget allows `bo.length` further attempts, a transport failing on every
attempt makes `Do` invoke the Transport `bo.length + 1` times and return
the exhaustion wrapping of the last transient failure. -/
theorem C3_transport_errors_transient_until_exhaustion
    (c : Client) (req : Request) (m : Nat → String) (bo : BackoffT)
    (hw : waitOk c req) (hr : ∀ i, c.Requester i = .error (m i))
    (hB : c.Backoff = some bo) :
    (∀ i, (c.doAttempt req i).1 = (none, some (.transportErr (m i))) ∧
        GoError.isPermanentTagged (.transportErr (m i)) = false) ∧
    (c.Do req).1 =
      (none, some (.wrapped "exhausted all retries"
        (.transportErr (m bo.length)))) ∧
    transportCalls (c.Do req).2 = bo.length + 1 := by
  obtain ⟨h1, h2⟩ := backoffRetry_transient_forever c req m hw hr bo 0
  rcases hR : backoffRetry c req bo 0 with ⟨⟨r, err⟩, evs⟩
  rw [hR] at h1 h2
  have h1a : r = none := congrArg Prod.fst h1
  have h1b : err = some (.transportErr (m (0 + bo.length))) :=
    congrArg Prod.snd h1
  rw [Nat.zero_add] at h1b
  have hrun : backoffRetry c req bo 0 =
      ((none, some (.transportErr (m bo.length))), evs) := by
    rw [hR, h1a, h1b]
  have hDo := Do_backoff_error c req bo hB none (.transportErr (m bo.length))
    evs hrun
  refine ⟨?_, by rw [hDo], by rw [hDo]; exact h2⟩
  intro i
  exact ⟨by rw [doAttempt_transport_error c req i (m i) hw (hr i)], rfl⟩

/-- Witness for C3: a transport refusing every dial, with a two-delay
retry policy: three Transport invocations, then the wrapped last error. -/
theorem C3_transport_errors_transient_until_exhaustion_witness :
    (∀ i, ((Client.mk failTransport none (some [5, 7])).doAttempt reqA i).1 =
        (none, some (.transportErr ("dial refused " ++ toString i))) ∧
        GoError.isPermanentTagged
          (.transportErr ("dial refused " ++ toString i)) = false) ∧
    ((Client.mk failTransport none (some [5, 7])).Do reqA).1 =
      (none, some (.wrapped "exhausted all retries"
        (.transportErr ("dial refused " ++ toString 2)))) ∧
    transportCalls ((Client.mk failTransport none (some [5, 7])).Do reqA).2 = 3 :=
  C3_transport_errors_transient_until_exhaustion
    (Client.mk failTransport none (some [5, 7])) reqA
    (fun i => "dial refused " ++ toString i) [5, 7]
    (by trivial) (fun i => rfl) rfl

/-- C4: with a retry policy configured, whenever `Do` fails, the error
it returns is the last error of the retry driver wrapped exactly once
with the "exhausted all retries" context message; the underlying error
itself contains no such wrapping. -/
theorem C4_exhaustion_wrapping_exactly_once
    (c : Client) (req : Request) (bo : BackoffT) (e0 : GoError)
    (hB : c.Backoff = some bo) (he : (c.Do req).1.2 = some e0) :
    ∃ e, e0 = .wrapped "exhausted all retries" e ∧
      e.wrapFree = true ∧
      (backoffRetry c req bo 0).1.2 = some e := by
  rcases backoffRetry_cases c req bo 0 with ⟨resp, evs, h⟩ | ⟨e, evs, h, hwf⟩
  · rw [Do_backoff_success c req bo hB (some resp) evs h] at he
    simp at he
  · have hDo := Do_backoff_error c req bo hB none e evs h
    rw [hDo] at he
    simp at he
    exact ⟨e, he.symm, hwf, by rw [h]⟩

/-- Witness for C4: the exhaustion error of the always-failing transport
wraps the last transient error exactly once. -/
theorem C4_exhaustion_wrapping_exactly_once_witness :
    ∃ e, some (.wrapped "exhausted all retries" (.transportErr "dial refused 1")) =
        some (GoError.wrapped "exhausted all retries" e) ∧
      e.wrapFree = true ∧
      (backoffRetry (Client.mk failTransport none (some [4])) reqA [4] 0).1.2 =
        some e := by
  have h := C4_exhaustion_wrapping_exactly_once
    (Client.mk failTransport none (some [4])) reqA [4]
    (.wrapped "exhausted all retries" (.transportErr "dial refused 1"))
    rfl (by decide)
  rcases h with ⟨e, h1, h2, h3⟩
  exact ⟨e, by rw [← h1], h2, h3⟩

/-- When the configured waiter fails on the request context, every
attempt of the retry driver stops at the wait step: the driver gives up
with the context error and the whole trace is one wait call per attempt. -/
theorem backoffRetry_wait_fail (c : Client) (req : Request) (w : WaiterT)
    (m : String) (hW : c.Waiter = some w) (hm : w req.ctx = some m)
    (bo : BackoffT) (k : Nat) :
    backoffRetry c req bo k =
      ((none, some (.ctxErr m)), List.replicate (bo.length + 1) .waitCall) := by
  induction bo generalizing k with
  | nil =>
    have hatt := doAttempt_wait_fail c req k w m hW hm
    rw [backoffRetry_transient_nil c req k none _ _ hatt rfl]
    simp
  | cons d rest ih =>
    have hatt := doAttempt_wait_fail c req k w m hW hm
    rw [backoffRetry_transient_cons c req d rest k none _ _ hatt rfl, ih (k + 1)]
    simp [List.replicate_succ]

/-- C5, corrected in the retry-policy clause: a failing waiter makes the
attempt step surface the context error exactly as the waiter produced
it, with the Transport never invoked, for every retry-policy
configuration; without a retry policy `Do` fails immediately with that
very error, while with a retry policy the driver re-runs the wait step
and `Do` returns the exhaustion wrapping of the context error — still
without ever invoking the Transport. -/
theorem C5_waiter_failure_no_transport
    (c : Client) (req : Request) (w : WaiterT) (m : String)
    (hW : c.Waiter = some w) (hm : w req.ctx = some m) :
    (∀ attempt, c.doAttempt req attempt =
        ((none, some (.ctxErr m)), [.waitCall])) ∧
    (c.Backoff = none → c.Do req = ((none, some (.ctxErr m)), [.waitCall])) ∧
    (∀ bo, c.Backoff = some bo →
      (c.Do req).1 =
        (none, some (.wrapped "exhausted all retries" (.ctxErr m)))) ∧
    transportCalls (c.Do req).2 = 0 := by
  have hatt := fun attempt => doAttempt_wait_fail c req attempt w m hW hm
  refine ⟨hatt, ?_, ?_, ?_⟩
  · intro hB
    rw [Do_no_backoff c req hB, hatt 0]
  · intro bo hB
    have hrun := backoffRetry_wait_fail c req w m hW hm bo 0
    rw [Do_backoff_error c req bo hB none _ _ hrun]
  · cases hB : c.Backoff with
    | none =>
      rw [Do_no_backoff c req hB, hatt 0]
      simp [transportCalls]
    | some bo =>
      have hrun := backoffRetry_wait_fail c req w m hW hm bo 0
      rw [Do_backoff_error c req bo hB none _ _ hrun]
      simp [transportCalls, List.count_replicate]

/-- Counterexample to C5 as stated: with a cancelled-context waiter and
a one-delay retry policy, `Do` does not fail immediately with the bare
context error — the driver re-runs the wait step (two waiter
invocations) and the final error is the exhaustion wrapping. The
Transport is still never invoked. -/
theorem C5_as_stated_counterexample :
    ((Client.mk (okTransport resp200) (some cancelledWaiter) (some [0])).Do
        reqA).1.2 ≠ some (.ctxErr "context canceled") ∧
    ((Client.mk (okTransport resp200) (some cancelledWaiter) (some [0])).Do
        reqA).1.2 =
      some (.wrapped "exhausted all retries" (.ctxErr "context canceled")) ∧
    waitCalls
      ((Client.mk (okTransport resp200) (some cancelledWaiter) (some [0])).Do
        reqA).2 = 2 ∧
    transportCalls
      ((Client.mk (okTransport resp200) (some cancelledWaiter) (some [0])).Do
        reqA).2 = 0 := by
  refine ⟨?_, ?_, ?_, ?_⟩ <;> decide

/-- Witness for C5: a cancelled-context waiter with no retry policy
fails `Do` immediately with the context error and no transport call. -/
theorem C5_waiter_failure_no_transport_witness :
    (∀ attempt,
      (Client.mk (okTransport resp200) (some cancelledWaiter) none).doAttempt
          reqA attempt =
        ((none, some (.ctxErr "context canceled")), [.waitCall])) ∧
    ((Client.mk (okTransport resp200) (some cancelledWaiter) none).Backoff =
        none →
      (Client.mk (okTransport resp200) (some cancelledWaiter) none).Do reqA =
        ((none, some (.ctxErr "context canceled")), [.waitCall])) ∧
    (∀ bo,
      (Client.mk (okTransport resp200) (some cancelledWaiter) none).Backoff =
          some bo →
      ((Client.mk (okTransport resp200) (some cancelledWaiter) none).Do
          reqA).1 =
        (none, some (.wrapped "exhausted all retries"
          (.ctxErr "context canceled")))) ∧
    transportCalls
      ((Client.mk (okTransport resp200) (some cancelledWaiter) none).Do
        reqA).2 = 0 :=
  C5_waiter_failure_no_transport
    (Client.mk (okTransport resp200) (some cancelledWaiter) none) reqA
    cancelledWaiter "context canceled" rfl rfl

/-- C6: with no retry policy configured, `Do` is exactly one invocation
of the execution-and-classification step, returned unmodified, and its
error — transient or permanent — carries no exhaustion wrapping. -/
theorem C6_no_backoff_single_attempt_unmodified
    (c : Client) (req : Request) (hB : c.Backoff = none) :
    c.Do req = c.doAttempt req 0 ∧
    (∀ e, (c.Do req).1.2 = some e → e.wrapFree = true) := by
  refine ⟨Do_no_backoff c req hB, ?_⟩
  intro e he
  rw [Do_no_backoff c req hB] at he
  rcases doAttempt_cases c req 0 with ⟨resp, evs, h⟩ | ⟨e2, evs, h, hwf⟩
  · rw [h] at he
    simp at he
  · rw [h] at he
    simp at he
    exact he ▸ hwf

/-- Witness for C6: a 404 with no retry policy comes back as the
attempt result itself, a permanent `HTTPError` with no wrapping. -/
theorem C6_no_backoff_single_attempt_unmodified_witness :
    (Client.mk (okTransport resp404) none none).Do reqA =
      (Client.mk (okTransport resp404) none none).doAttempt reqA 0 ∧
    (∀ e, ((Client.mk (okTransport resp404) none none).Do reqA).1.2 = some e →
      e.wrapFree = true) :=
  C6_no_backoff_single_attempt_unmodified
    (Client.mk (okTransport resp404) none none) reqA rfl

/-- C7: on the 4xx path the body is drained and closed exactly once —
also across the whole of `Do`, for every retry-policy configuration —
and the resulting permanent `HTTPError` carries the status code with the
drained text when the drain succeeds, or with an empty body when the
drain itself fails. -/
theorem C7_4xx_drain_close_once_body_or_empty
    (c : Client) (req : Request) (resp : Response)
    (hw : waitOk c req) (hr : c.Requester 0 = .ok resp)
    (h4 : resp.StatusCode > 399 ∧ resp.StatusCode < 500) :
    bodyCloses (c.doAttempt req 0).2 = 1 ∧
    bodyCloses (c.Do req).2 = 1 ∧
    (∀ s, resp.Body = .ok s →
      (c.doAttempt req 0).1.2 =
        some (.permanent (.http (HTTPError.mk resp.StatusCode s resp)))) ∧
    (∀ msg, resp.Body = .error msg →
      (c.doAttempt req 0).1.2 =
        some (.permanent (.http (HTTPError.mk resp.StatusCode "" resp)))) := by
  have hatt := doAttempt_4xx c req 0 resp hw hr h4
  have hDoTrace : (c.Do req).2 =
      waitTrace c ++ [.transportCall, .bodyClose] := by
    cases hB : c.Backoff with
    | none => rw [Do_no_backoff c req hB, hatt]
    | some bo =>
      have hrun := backoffRetry_of_permanent c req bo 0 none
        (.permanent (.http (httpErrorFor resp)))
        (waitTrace c ++ [.transportCall, .bodyClose]) hatt rfl
      rw [Do_backoff_error c req bo hB none _ _ hrun]
  refine ⟨?_, ?_, ?_, ?_⟩
  · rw [hatt]
    show bodyCloses (waitTrace c ++ [.transportCall, .bodyClose]) = 1
    rw [bodyCloses_after_wait]
    decide
  · rw [hDoTrace, bodyCloses_after_wait]
    decide
  · intro s hs
    rw [hatt]
    simp [httpErrorFor, hs]
  · intro msg hs
    rw [hatt]
    simp [httpErrorFor, hs]

/-- Witness for C7: a 404 whose body drain fails still yields the
permanent `HTTPError`, with an empty body, after exactly one close. -/
theorem C7_4xx_drain_close_once_body_or_empty_witness :
    bodyCloses
      ((Client.mk (okTransport resp404bad) none (some [9])).doAttempt reqA 0).2 = 1 ∧
    bodyCloses ((Client.mk (okTransport resp404bad) none (some [9])).Do reqA).2 = 1 ∧
    (∀ s, resp404bad.Body = .ok s →
      ((Client.mk (okTransport resp404bad) none (some [9])).doAttempt reqA 0).1.2 =
        some (.permanent (.http (HTTPError.mk resp404bad.StatusCode s resp404bad)))) ∧
    (∀ msg, resp404bad.Body = .error msg →
      ((Client.mk (okTransport resp404bad) none (some [9])).doAttempt reqA 0).1.2 =
        some (.permanent (.http (HTTPError.mk resp404bad.StatusCode "" resp404bad)))) :=
  C7_4xx_drain_close_once_body_or_empty
    (Client.mk (okTransport resp404bad) none (some [9])) reqA resp404bad
    (by trivial) rfl (by decide)

/-- An event absent from every attempt trace is absent from the whole
retry-driver trace. -/
theorem count_backoffRetry_zero (c : Client) (req : Request) (ev : Event)
    (h : ∀ k, (c.doAttempt req k).2.count ev = 0) (bo : BackoffT) (k : Nat) :
    (backoffRetry c req bo k).2.count ev = 0 := by
  induction bo generalizing k with
  | nil =>
    rcases hA : c.doAttempt req k with ⟨⟨r, err⟩, evs⟩
    have hev : evs.count ev = 0 := by
      have := h k
      rw [hA] at this
      exact this
    cases err with
    | none =>
      rw [backoffRetry_of_success c req [] k r evs hA]
      exact hev
    | some e =>
      by_cases hp : e.isPermanentTagged = true
      · rw [backoffRetry_of_permanent c req [] k r e evs hA hp]
        exact hev
      · rw [backoffRetry_transient_nil c req k r e evs hA (by simpa using hp)]
        exact hev
  | cons d rest ih =>
    rcases hA : c.doAttempt req k with ⟨⟨r, err⟩, evs⟩
    have hev : evs.count ev = 0 := by
      have := h k
      rw [hA] at this
      exact this
    cases err with
    | none =>
      rw [backoffRetry_of_success c req (d :: rest) k r evs hA]
      exact hev
    | some e =>
      by_cases hp : e.isPermanentTagged = true
      · rw [backoffRetry_of_permanent c req (d :: rest) k r e evs hA hp]
        exact hev
      · rw [backoffRetry_transient_cons c req d rest k r e evs hA
          (by simpa using hp)]
        simp [List.count_append, hev, ih (k + 1)]

/-- An event absent from every attempt trace is absent from the whole
`Do` trace, for every retry-policy configuration. -/
theorem count_Do_zero (c : Client) (req : Request) (ev : Event)
    (h : ∀ k, (c.doAttempt req k).2.count ev = 0) :
    (c.Do req).2.count ev = 0 := by
  cases hB : c.Backoff with
  | none =>
    rw [Do_no_backoff c req hB]
    exact h 0
  | some bo =>
    have hz := count_backoffRetry_zero c req ev h bo 0
    rcases hR : backoffRetry c req bo 0 with ⟨⟨r, err⟩, evs⟩
    rw [hR] at hz
    cases err with
    | none =>
      rw [Do_backoff_success c req bo hB r evs hR]
      exact hz
    | some e =>
      rw [Do_backoff_error c req bo hB r e evs hR]
      exact hz

/-- C8: with no waiter configured the wait step is skipped entirely —
no wait invocation appears in any attempt or anywhere in `Do` — and
the rest of the attempt is exactly what it would be with an admitting
waiter present, minus the wait event: same result, same trace tail. -/
theorem C8_no_waiter_skips_wait_step
    (c : Client) (req : Request) (hW : c.Waiter = none) :
    (∀ attempt, waitCalls (c.doAttempt req attempt).2 = 0) ∧
    waitCalls (c.Do req).2 = 0 ∧
    (∀ (w : WaiterT), w req.ctx = none → ∀ attempt,
      ((Client.mk c.Requester (some w) c.Backoff).doAttempt req attempt).1 =
        (c.doAttempt req attempt).1 ∧
      ((Client.mk c.Requester (some w) c.Backoff).doAttempt req attempt).2 =
        .waitCall :: (c.doAttempt req attempt).2) := by
  have hw1 : waitOk c req := waitOk_of_none c req hW
  have wt1 : waitTrace c = [] := by simp [waitTrace, hW]
  have attemptCount : ∀ attempt, waitCalls (c.doAttempt req attempt).2 = 0 := by
    intro attempt
    cases hr : c.Requester attempt with
    | error msg =>
      rw [doAttempt_transport_error c req attempt msg hw1 hr, wt1]
      simp [waitCalls]
    | ok resp =>
      by_cases h4 : resp.StatusCode > 399 ∧ resp.StatusCode < 500
      · rw [doAttempt_4xx c req attempt resp hw1 hr h4, wt1]
        simp [waitCalls]
      · rw [doAttempt_success c req attempt resp hw1 hr h4, wt1]
        simp [waitCalls]
  refine ⟨attemptCount, count_Do_zero c req .waitCall attemptCount, ?_⟩
  intro w hwctx attempt
  have hw2 : waitOk (Client.mk c.Requester (some w) c.Backoff) req :=
    waitOk_of_pass _ req w rfl hwctx
  cases hr : c.Requester attempt with
  | error msg =>
    rw [doAttempt_transport_error c req attempt msg hw1 hr,
      doAttempt_transport_error (Client.mk c.Requester (some w) c.Backoff)
        req attempt msg hw2 hr, wt1]
    exact ⟨rfl, rfl⟩
  | ok resp =>
    by_cases h4 : resp.StatusCode > 399 ∧ resp.StatusCode < 500
    · rw [doAttempt_4xx c req attempt resp hw1 hr h4,
        doAttempt_4xx (Client.mk c.Requester (some w) c.Backoff)
          req attempt resp hw2 hr h4, wt1]
      exact ⟨rfl, rfl⟩
    · rw [doAttempt_success c req attempt resp hw1 hr h4,
        doAttempt_success (Client.mk c.Requester (some w) c.Backoff)
          req attempt resp hw2 hr h4, wt1]
      exact ⟨rfl, rfl⟩

/-- Witness for C8: a 200 client with no waiter performs no wait call
and behaves like the same client with an always-admitting waiter,
modulo the wait event. -/
theorem C8_no_waiter_skips_wait_step_witness :
    (∀ attempt,
      waitCalls ((Client.mk (okTransport resp200) none (some [2])).doAttempt
        reqA attempt).2 = 0) ∧
    waitCalls ((Client.mk (okTransport resp200) none (some [2])).Do reqA).2 = 0 ∧
    (∀ (w : WaiterT), w reqA.ctx = none → ∀ attempt,
      ((Client.mk (Client.mk (okTransport resp200) none (some [2])).Requester
          (some w)
          (Client.mk (okTransport resp200) none (some [2])).Backoff).doAttempt
            reqA attempt).1 =
        ((Client.mk (okTransport resp200) none (some [2])).doAttempt
          reqA attempt).1 ∧
      ((Client.mk (Client.mk (okTransport resp200) none (some [2])).Requester
          (some w)
          (Client.mk (okTransport resp200) none (some [2])).Backoff).doAttempt
            reqA attempt).2 =
        .waitCall ::
          ((Client.mk (okTransport resp200) none (some [2])).doAttempt
            reqA attempt).2) :=
  C8_no_waiter_skips_wait_step
    (Client.mk (okTransport resp200) none (some [2])) reqA rfl

/-- Only the 4xx classification branch ever closes a body: an attempt
whose outcome is success or an untagged (transient) error performs no
body-close event. -/
theorem doAttempt_no_close_unless_permanent (c : Client) (req : Request)
    (attempt : Nat) (r : Option Response) (err : Option GoError)
    (evs : List Event) (h : c.doAttempt req attempt = ((r, err), evs))
    (hnp : err = none ∨ ∃ e, err = some e ∧ e.isPermanentTagged = false) :
    bodyCloses evs = 0 := by
  have afterWait : waitOk c req → bodyCloses evs = 0 := by
    intro hw
    cases hr : c.Requester attempt with
    | error msg =>
      have hatt := doAttempt_transport_error c req attempt msg hw hr
      rw [hatt] at h
      have hevs : evs = waitTrace c ++ [.transportCall] :=
        (congrArg Prod.snd h).symm
      rw [hevs, bodyCloses_after_wait]
      decide
    | ok resp =>
      by_cases h4 : resp.StatusCode > 399 ∧ resp.StatusCode < 500
      · have hatt := doAttempt_4xx c req attempt resp hw hr h4
        rw [hatt] at h
        have herr : some (GoError.permanent (.http (httpErrorFor resp))) =
            err := congrArg Prod.snd (congrArg Prod.fst h)
        rcases hnp with hnone | ⟨e, hsome, hfalse⟩
        · rw [hnone] at herr
          exact absurd herr (by simp)
        · rw [hsome] at herr
          injection herr with he
          rw [← he] at hfalse
          simp [GoError.isPermanentTagged] at hfalse
      · have hatt := doAttempt_success c req attempt resp hw hr h4
        rw [hatt] at h
        have hevs : evs = waitTrace c ++ [.transportCall] :=
          (congrArg Prod.snd h).symm
        rw [hevs, bodyCloses_after_wait]
        decide
  cases hW : c.Waiter with
  | none => exact afterWait (waitOk_of_none c req hW)
  | some w =>
    cases hm : w req.ctx with
    | some m =>
      have hatt := doAttempt_wait_fail c req attempt w m hW hm
      rw [hatt] at h
      have hevs : evs = [.waitCall] := (congrArg Prod.snd h).symm
      rw [hevs]
      decide
    | none => exact afterWait (waitOk_of_pass c req w hW hm)

/-- If the retry driver ends in success, no attempt along the way closed
a body: every failed attempt was transient (a wait or transport
failure), and the succeeding attempt returns the body untouched. -/
theorem backoffRetry_success_no_close (c : Client) (req : Request)
    (bo : BackoffT) (k : Nat) (r : Option Response) (evs : List Event)
    (h : backoffRetry c req bo k = ((r, none), evs)) :
    bodyCloses evs = 0 := by
  induction bo generalizing k r evs with
  | nil =>
    rcases hA : c.doAttempt req k with ⟨⟨r0, err0⟩, evs0⟩
    cases err0 with
    | none =>
      rw [backoffRetry_of_success c req [] k r0 evs0 hA] at h
      have hevs : evs0 = evs := congrArg Prod.snd h
      rw [← hevs]
      exact doAttempt_no_close_unless_permanent c req k r0 none evs0 hA
        (Or.inl rfl)
    | some e =>
      by_cases hp : e.isPermanentTagged = true
      · rw [backoffRetry_of_permanent c req [] k r0 e evs0 hA hp] at h
        have hc : (some e.stripPermanent : Option GoError) = none :=
          congrArg Prod.snd (congrArg Prod.fst h)
        exact absurd hc (by simp)
      · rw [backoffRetry_transient_nil c req k r0 e evs0 hA
          (by simpa using hp)] at h
        have hc : (some e : Option GoError) = none :=
          congrArg Prod.snd (congrArg Prod.fst h)
        exact absurd hc (by simp)
  | cons d rest ih =>
    rcases hA : c.doAttempt req k with ⟨⟨r0, err0⟩, evs0⟩
    cases err0 with
    | none =>
      rw [backoffRetry_of_success c req (d :: rest) k r0 evs0 hA] at h
      have hevs : evs0 = evs := congrArg Prod.snd h
      rw [← hevs]
      exact doAttempt_no_close_unless_permanent c req k r0 none evs0 hA
        (Or.inl rfl)
    | some e =>
      by_cases hp : e.isPermanentTagged = true
      · rw [backoffRetry_of_permanent c req (d :: rest) k r0 e evs0 hA hp] at h
        have hc : (some e.stripPermanent : Option GoError) = none :=
          congrArg Prod.snd (congrArg Prod.fst h)
        exact absurd hc (by simp)
      · rw [backoffRetry_transient_cons c req d rest k r0 e evs0 hA
          (by simpa using hp)] at h
        rcases hR : backoffRetry c req rest (k + 1) with ⟨⟨r2, err2⟩, evs2⟩
        rw [hR] at h
        have herr2 : err2 = none :=
          congrArg Prod.snd (congrArg Prod.fst h)
        have hevs : evs0 ++ evs2 = evs := congrArg Prod.snd h
        rw [← hevs, bodyCloses_append]
        have h0 : bodyCloses evs0 = 0 :=
          doAttempt_no_close_unless_permanent c req k r0 (some e) evs0 hA
            (Or.inr ⟨e, rfl, by simpa using hp⟩)
        have h2 : bodyCloses evs2 = 0 := by
          rw [herr2] at hR
          exact ih (k + 1) r2 evs2 hR
        omega

/-- On the success path `Do` never closes a body: the response reaches
the caller with its stream untouched, for every retry-policy
configuration. -/
theorem Do_success_no_close (c : Client) (req : Request)
    (r : Option Response) (evs : List Event)
    (h : c.Do req = ((r, none), evs)) :
    bodyCloses evs = 0 := by
  cases hB : c.Backoff with
  | none =>
    rw [Do_no_backoff c req hB] at h
    exact doAttempt_no_close_unless_permanent c req 0 r none evs h (Or.inl rfl)
  | some bo =>
    rcases hR : backoffRetry c req bo 0 with ⟨⟨r2, err2⟩, evs2⟩
    cases err2 with
    | none =>
      rw [Do_backoff_success c req bo hB r2 evs2 hR] at h
      have hevs : evs2 = evs := congrArg Prod.snd h
      rw [← hevs]
      exact backoffRetry_success_no_close c req bo 0 r2 evs2 hR
    | some e =>
      rw [Do_backoff_error c req bo hB r2 e evs2 hR] at h
      have hc : (some (GoError.wrapped "exhausted all retries" e) :
          Option GoError) = none :=
        congrArg Prod.snd (congrArg Prod.fst h)
      exact absurd hc (by simp)

/-- C9: every `Do` call yields exactly one of a response (with nil
error and the body stream still open: no body-close event anywhere in
the call) or an error (with nil response); a wrapped error out of `Do`
is always the exhaustion wrapping, whose message prefixes the
underlying message, and a classified permanent error prints the
`HTTPError` status and body message while the response slot is nil. -/
theorem C9_single_outcome_with_indicative_message
    (c : Client) (req : Request) :
    ((∃ resp, (c.Do req).1 = (some resp, none) ∧
        bodyCloses (c.Do req).2 = 0) ∨
      (∃ e, (c.Do req).1 = (none, some e))) ∧
    (∀ m e, (c.Do req).1.2 = some (.wrapped m e) →
      m = "exhausted all retries" ∧
      GoError.message (.wrapped m e) = "exhausted all retries: " ++ e.message) ∧
    (∀ he, (c.Do req).1.2 = some (.permanent (.http he)) →
      (c.Do req).1.1 = none ∧
      GoError.message (.permanent (.http he)) = he.ErrorString) := by
  have hcases :
      (∃ resp evs, c.Do req = ((some resp, none), evs)) ∨
      (∃ e evs, c.Do req = ((none, some e), evs) ∧
        (e.wrapFree = true ∨
          ∃ e2, e2.wrapFree = true ∧
            e = .wrapped "exhausted all retries" e2)) := by
    cases hB : c.Backoff with
    | none =>
      rcases doAttempt_cases c req 0 with ⟨resp, evs, h⟩ | ⟨e, evs, h, hwf⟩
      · exact Or.inl ⟨resp, evs, by rw [Do_no_backoff c req hB, h]⟩
      · exact Or.inr ⟨e, evs, by rw [Do_no_backoff c req hB, h], Or.inl hwf⟩
    | some bo =>
      rcases backoffRetry_cases c req bo 0 with ⟨resp, evs, h⟩ | ⟨e, evs, h, hwf⟩
      · exact Or.inl ⟨resp, evs, Do_backoff_success c req bo hB (some resp) evs h⟩
      · exact Or.inr ⟨.wrapped "exhausted all retries" e, evs,
          Do_backoff_error c req bo hB none e evs h, Or.inr ⟨e, hwf, rfl⟩⟩
  have hs : ("exhausted all retries" ++ ": " : String) =
      "exhausted all retries: " := by decide
  refine ⟨?_, ?_, ?_⟩
  · rcases hcases with ⟨resp, evs, h⟩ | ⟨e, evs, h, _⟩
    · refine Or.inl ⟨resp, by rw [h], ?_⟩
      rw [h]
      exact Do_success_no_close c req (some resp) evs h
    · exact Or.inr ⟨e, by rw [h]⟩
  · intro m e hme
    rcases hcases with ⟨resp, evs, h⟩ | ⟨e0, evs, h, hwf⟩
    · rw [h] at hme
      simp at hme
    · rw [h] at hme
      simp at hme
      rcases hwf with hwf | ⟨e2, hwf2, heq⟩
      · rw [hme] at hwf
        simp [GoError.wrapFree] at hwf
      · rw [heq] at hme
        injection hme with hm he2
        refine ⟨hm.symm, ?_⟩
        show m ++ ": " ++ e.message = "exhausted all retries: " ++ e.message
        rw [← hm]
        exact congrArg (fun s => s ++ e.message) hs
  · intro he hhe
    rcases hcases with ⟨resp, evs, h⟩ | ⟨e0, evs, h, hwf⟩
    · rw [h] at hhe
      simp at hhe
    · refine ⟨by rw [h], rfl⟩

/-- C10: `New` with no options yields `http.DefaultClient`, no waiter
and no backoff; options are folded over the client in argument order, so
of two options setting the same field the later wins. -/
theorem C10_new_defaults_options_in_order :
    New [] = Client.mk httpDefaultClient none none ∧
    (∀ opts o, New (opts ++ [o]) = o (New opts)) ∧
    (∀ c r1 r2, WithHttpClient r2 (WithHttpClient r1 c) = WithHttpClient r2 c) ∧
    (∀ c w1 w2,
      WithRateLimiter w2 (WithRateLimiter w1 c) = WithRateLimiter w2 c) ∧
    (∀ c b1 b2, WithBackOff b2 (WithBackOff b1 c) = WithBackOff b2 c) := by
  refine ⟨rfl, ?_, fun c r1 r2 => rfl, fun c w1 w2 => rfl, fun c b1 b2 => rfl⟩
  intro opts o
  simp [New, List.foldl_append]

/-- Witness for C9 at a concrete 404 client with no retry policy. -/
theorem C9_single_outcome_with_indicative_message_witness :
    ((∃ resp,
        ((Client.mk (okTransport resp404) none none).Do reqA).1 =
          (some resp, none) ∧
        bodyCloses ((Client.mk (okTransport resp404) none none).Do reqA).2 =
          0) ∨
      (∃ e,
        ((Client.mk (okTransport resp404) none none).Do reqA).1 =
          (none, some e))) ∧
    (∀ m e,
      ((Client.mk (okTransport resp404) none none).Do reqA).1.2 =
          some (.wrapped m e) →
      m = "exhausted all retries" ∧
      GoError.message (.wrapped m e) =
        "exhausted all retries: " ++ e.message) ∧
    (∀ he,
      ((Client.mk (okTransport resp404) none none).Do reqA).1.2 =
          some (.permanent (.http he)) →
      ((Client.mk (okTransport resp404) none none).Do reqA).1.1 = none ∧
      GoError.message (.permanent (.http he)) = he.ErrorString) :=
  C9_single_outcome_with_indicative_message
    (Client.mk (okTransport resp404) none none) reqA
